import Mathlib

/-!
Verification of the fx-platform-windows strategy executor backend
(`src/windows-executor-v2/backend`).  Each Python module relevant to the
frozen claims is shallowly embedded below: pure functions become Lean
functions over `ℚ` (Python floats are modelled as rationals), Python dicts
with known keys become structures whose `Option` fields model `dict.get`,
fallible paths return `Option`/`Except`, and in-place mutation is modelled
by explicit state passing.
-/

namespace FX

/-! ### Python string primitives

Python's `str.lower`, `str.upper`, substring membership (`in`), and
`float(...)` parsing, modelled over the character list of a `String`.
`pyFloat?` covers plain decimal literals (optional sign, digits, one
optional dot), the only shapes that occur in strategy rule payloads;
other inputs are mapped to `none`, matching `float(...)` raising
`ValueError` which the source turns into `None`. -/

def lowerChar (c : Char) : Char :=
  if 65 ≤ c.toNat ∧ c.toNat ≤ 90 then Char.ofNat (c.toNat + 32) else c

def upperChar (c : Char) : Char :=
  if 97 ≤ c.toNat ∧ c.toNat ≤ 122 then Char.ofNat (c.toNat - 32) else c

def pyLower (s : String) : String := ⟨s.data.map lowerChar⟩

def pyUpper (s : String) : String := ⟨s.data.map upperChar⟩

def containsSubAux (needle : List Char) : List Char → Bool
  | [] => List.isPrefixOf needle []
  | c :: rest => List.isPrefixOf needle (c :: rest) || containsSubAux needle rest

/-- Python `needle in hay` on strings. -/
def pyInStr (needle hay : String) : Bool := containsSubAux needle.data hay.data

def digitsVal : List Char → ℕ → Option ℕ
  | [], acc => some acc
  | c :: cs, acc =>
      if c.isDigit then digitsVal cs (acc * 10 + (c.toNat - 48)) else Option.none

def pyFloatCore (cs : List Char) : Option ℚ :=
  let intPart := cs.takeWhile Char.isDigit
  let rest := cs.dropWhile Char.isDigit
  match rest with
  | [] =>
      if intPart.isEmpty then Option.none
      else (digitsVal intPart 0).map (fun n => (n : ℚ))
  | '.' :: frac =>
      if ¬ frac.all Char.isDigit then Option.none
      else if intPart.isEmpty ∧ frac.isEmpty then Option.none
      else
        match digitsVal intPart 0, digitsVal frac 0 with
        | some i, some f => some ((i : ℚ) + (f : ℚ) / ((10 : ℚ) ^ frac.length))
        | _, _ => Option.none
  | _ => Option.none

def pyFloat? (s : String) : Option ℚ :=
  match s.data with
  | '-' :: rest => (pyFloatCore rest).map Neg.neg
  | '+' :: rest => pyFloatCore rest
  | cs => pyFloatCore cs

/-! ### Condition evaluator (`core/condition_evaluator.py`)

A strategy condition is a dict `{indicator, condition, value, and?,
description?}` plus pass-through metadata attached by
`core/strategy_adapter.py` (`_mtf.timeframe`, `_mtf.required`) that the
evaluator itself never reads.  The indicator snapshot
(`indicators/talib_wrapper.py::calculate_all`) is a flat map from
indicator name to its latest value; it contains no previous-bar values. -/

/-- The `value` slot of a condition: absent, numeric literal, or string
(an indicator reference or a textual number). -/
inductive CondValue where
  | none
  | num (x : ℚ)
  | str (s : String)
deriving Repr, DecidableEq

/-- One condition dict as read by `ConditionEvaluator._evaluate_condition`.
`comparator` is `condition.get("condition", "greater_than")` already
resolved. -/
structure BaseCond where
  indicator : String
  comparator : String := "greater_than"
  value : CondValue := CondValue.none
deriving Repr, DecidableEq

/-- A top-level condition: the base comparison, the optional nested
`"and"` sub-dict, the free-form `description`, and the `_mtf` metadata
(`timeframe`, `required`) that `strategy_adapter.normalize_rules` attaches
for confirmation conditions. -/
structure Condition where
  base : BaseCond
  andCond : Option BaseCond := Option.none
  description : String := ""
  mtfTimeframe : Option String := Option.none
  mtfRequired : Bool := false
deriving Repr, DecidableEq

/-- The indicator snapshot `Dict[str, float]`. -/
abbrev Indicators := List (String × ℚ)

/-- Python `indicators.get(key)`. -/
def getInd (inds : Indicators) (k : String) : Option ℚ :=
  (inds.find? (fun p => p.1 == k)).map Prod.snd

namespace ConditionEvaluator

/-- `ConditionEvaluator._resolve_value`. -/
def resolve_value (v : CondValue) (inds : Indicators) : Option ℚ :=
  match v with
  | CondValue.none => Option.none
  | CondValue.num x => some x
  | CondValue.str s =>
      let lowered := pyLower s
      match getInd inds lowered with
      | some x => some x
      | Option.none => pyFloat? s

/-- `ConditionEvaluator._evaluate_condition`.  Note the source evaluates
`crosses_above`/`crosses_below` exactly like `greater_than`/`less_than`
on the current values; no previous values are consulted (none exist in
the snapshot). -/
def evaluate_condition (c : BaseCond) (inds : Indicators) : Bool :=
  let iv0 := getInd inds (pyLower c.indicator)
  let iv := if iv0.isNone ∧ pyLower c.indicator = "price" then getInd inds "close" else iv0
  let cv := resolve_value c.value inds
  match iv, cv with
  | some l, some r =>
      if c.comparator = "greater_than" then decide (l > r)
      else if c.comparator = "less_than" then decide (l < r)
      else if c.comparator = "crosses_above" then decide (l > r)
      else if c.comparator = "crosses_below" then decide (l < r)
      else false
  | _, _ => false

/-- The per-condition step of `ConditionEvaluator.evaluate`: the base
comparison, conjoined with the nested `"and"` condition when present and
the base already holds. -/
def evalCondition (c : Condition) (inds : Indicators) : Bool :=
  let result := evaluate_condition c.base inds
  match c.andCond with
  | some a => if result then result && evaluate_condition a inds else result
  | Option.none => result

/-- `ConditionEvaluator._resolve_direction`: the first condition whose
lower-cased description contains "sell" yields SELL, else BUY. -/
def resolve_direction (conds : List Condition) : String :=
  match conds.find? (fun c => pyInStr "sell" (pyLower c.description)) with
  | some _ => "SELL"
  | Option.none => "BUY"

/-- `ConditionEvaluator.evaluate`: AND/OR reduction of the per-condition
booleans, then direction resolution.  `None` models "no signal". -/
def evaluate (conds : List Condition) (logic : String) (inds : Indicators) : Option String :=
  let ms := conds.map (fun c => evalCondition c inds)
  let signal := if pyUpper logic = "AND" then ms.all id else ms.any id
  if signal then some (resolve_direction conds) else Option.none

end ConditionEvaluator

/-- The specification's crossing semantics for `crosses_above`
(spec §4.1): previous left ≤ previous right and current left > current
right.  Stated from the spec's words, for comparison against the
source-derived `evaluate_condition`. -/
def specCrossesAbove (prevLeft currLeft prevRight currRight : ℚ) : Bool :=
  decide (prevLeft ≤ prevRight ∧ currLeft > currRight)

/-! ### Risk & sizing (`core/risk_manager.py`, `core/dynamic_risk.py`) -/

/-- Python truthiness of `dict.get(key)` for a numeric slot:
`None` and `0.0` are falsy. -/
def pyTruthy (o : Option ℚ) : Bool :=
  match o with
  | some x => x != 0
  | Option.none => false

/-- Python `x or 1.0` for a float `x`. -/
def pyOrOne (x : ℚ) : ℚ := if x = 0 then 1 else x

/-- The slots of the broker account dict that sizing reads
(`account_info.get("balance"/"equity")`). -/
structure AccountInfo where
  balance : Option ℚ := Option.none
  equity : Option ℚ := Option.none
deriving Repr, DecidableEq

/-- `account_info.get("equity", account_info.get("balance", 0))`. -/
def equityOf (a : AccountInfo) : ℚ := a.equity.getD (a.balance.getD 0)

/-- The `riskManagement` rule dict as read by
`RiskManager.calculate_position_size`; `Option.none` models an absent
key so that `Option.getD` is `dict.get` with its default. -/
structure RiskRules where
  lotSize : Option ℚ := Option.none
  riskPercentage : Option ℚ := Option.none
  stopLossPips : Option ℚ := Option.none
  pipValue : Option ℚ := Option.none
  minLot : Option ℚ := Option.none
  maxLot : Option ℚ := Option.none
deriving Repr, DecidableEq

namespace RiskManager

/-- `RiskManager.calculate_position_size`.  An explicit truthy `lotSize`
is returned as-is (no clamp); degenerate pip value or stop distance
returns the literal `0.01`; only the computed percent-risk lot is clamped
to `[minLot, maxLot]`. -/
def calculate_position_size (account_info : AccountInfo) (risk_rules : RiskRules) : ℚ :=
  if pyTruthy risk_rules.lotSize then risk_rules.lotSize.getD 0
  else
    let balance := account_info.balance.getD 0
    let risk_percentage := risk_rules.riskPercentage.getD 1
    let stop_loss_pips := risk_rules.stopLossPips.getD 30
    let risk_amount := balance * (risk_percentage / 100)
    let pip_value := risk_rules.pipValue.getD 10
    if pip_value ≤ 0 ∨ stop_loss_pips ≤ 0 then 1/100
    else
      let lot := risk_amount / (pip_value * stop_loss_pips)
      let min_lot := risk_rules.minLot.getD (1/100)
      let max_lot := risk_rules.maxLot.getD 1
      max (min lot max_lot) min_lot

end RiskManager

/-- The `dynamicRisk` config dict read by `DynamicRiskManager`;
`method` carries `config.get("method", "fixed")` already resolved. -/
structure DynConfig where
  method : String := "fixed"
  lotSize : Option ℚ := Option.none
  minLotSize : Option ℚ := Option.none
  maxLotSize : Option ℚ := Option.none
  contractValue : Option ℚ := Option.none
  accountRiskPercentage : Option ℚ := Option.none
  atrMultiplier : Option ℚ := Option.none
  fallbackATR : Option ℚ := Option.none
  baseLotSize : Option ℚ := Option.none
  normalVolatility : Option ℚ := Option.none
  equityPercentage : Option ℚ := Option.none
deriving Repr, DecidableEq

/-- The `market` dict passed from `StrategyExecutor._execute_trade`. -/
structure MarketState where
  atr : Option ℚ := Option.none
  volatility : Option ℚ := Option.none
deriving Repr, DecidableEq

namespace DynamicRiskManager

/-- `DynamicRiskManager._clamp`. -/
def clamp (lot : ℚ) (config : DynConfig) : ℚ :=
  let min_lot := config.minLotSize.getD (1/100)
  let max_lot := config.maxLotSize.getD 2
  max min_lot (min lot max_lot)

/-- `DynamicRiskManager._kelly`; `history` is the `trade_history` profit
list. -/
def kelly (history : List ℚ) (account_info : AccountInfo) (config : DynConfig) : ℚ :=
  if history.length < 20 then config.minLotSize.getD (1/100)
  else
    let wins := history.filter (fun p => decide (p > 0))
    let losses := history.filter (fun p => decide (p < 0))
    if wins.length = 0 ∨ losses.length = 0 then config.minLotSize.getD (1/100)
    else
      let win_rate : ℚ := (wins.length : ℚ) / (history.length : ℚ)
      let avg_win := wins.sum / (wins.length : ℚ)
      let avg_loss := |losses.sum / (losses.length : ℚ)|
      let b := if avg_loss > 0 then avg_win / avg_loss else 1
      let q := 1 - win_rate
      let kelly_fraction := if b ≠ 0 then (win_rate * b - q) / b else 0
      let kf := max 0 (min (kelly_fraction * (1/4)) (1/10))
      let risk_amount := equityOf account_info * kf
      let lot_size := risk_amount / (config.contractValue.getD 10000)
      clamp lot_size config

/-- `DynamicRiskManager._atr_based`. -/
def atr_based (account_info : AccountInfo) (config : DynConfig) (market : MarketState) : ℚ :=
  let atr := market.atr.getD (config.fallbackATR.getD 1)
  let account_risk := (config.accountRiskPercentage.getD 1) / 100
  let risk_amount := equityOf account_info * account_risk
  let atr_multiplier := config.atrMultiplier.getD 2
  let stop_distance := atr * atr_multiplier
  if stop_distance ≤ 0 then clamp (config.minLotSize.getD (1/100)) config
  else
    let position_value := risk_amount / stop_distance
    let lot_size := position_value / (config.contractValue.getD 100000)
    clamp lot_size config

/-- `DynamicRiskManager._volatility_based`. -/
def volatility_based (_account_info : AccountInfo) (config : DynConfig) (market : MarketState) : ℚ :=
  let base_lot := config.baseLotSize.getD (1/10)
  let current_vol := pyOrOne (market.volatility.getD 1)
  let normal_vol := pyOrOne (config.normalVolatility.getD 1)
  let ratio := normal_vol / current_vol
  clamp (base_lot * ratio) config

/-- `DynamicRiskManager._equity_based`. -/
def equity_based (account_info : AccountInfo) (config : DynConfig) : ℚ :=
  let percentage := config.equityPercentage.getD (1/100)
  let contract_value := config.contractValue.getD 100000
  clamp (equityOf account_info * percentage / contract_value) config

/-- `DynamicRiskManager.calculate_position_size` method dispatch; any
unrecognised method (including the default `"fixed"`) returns the
configured `lotSize` literal without clamping. -/
def calculate_position_size (history : List ℚ) (account_info : AccountInfo)
    (config : DynConfig) (market : MarketState) : ℚ :=
  if config.method = "kelly_criterion" then kelly history account_info config
  else if config.method = "atr_based" then atr_based account_info config market
  else if config.method = "volatility_based" then volatility_based account_info config market
  else if config.method = "account_equity" then equity_based account_info config
  else config.lotSize.getD (1/100)

end DynamicRiskManager

/-! ### Trailing stop (`core/smart_exits.py::update_trailing_stop`) -/

/-- The `exit.trailing` config dict. -/
structure TrailConfig where
  distance : Option ℚ := Option.none
  step : Option ℚ := Option.none
deriving Repr, DecidableEq

namespace SmartExitManager

/-- `SmartExitManager.update_trailing_stop`: `ptype` is
`position["type"]`, `stopLoss` the stored `position.get("stopLoss", 0)`,
`point` the `symbol_info.get("point", 0.0001)`.  Returns `some newStop`
when the stop should move, `none` for no change. -/
def update_trailing_stop (ptype : String) (stopLoss : Option ℚ) (current_price : ℚ)
    (trail_config : TrailConfig) (point : Option ℚ) : Option ℚ :=
  let trail_distance := (trail_config.distance.getD 30) * point.getD (1/10000) * 10
  let trail_step := (trail_config.step.getD 10) * point.getD (1/10000) * 10
  if ptype = "BUY" then
    let new_stop := current_price - trail_distance
    if new_stop > stopLoss.getD 0 + trail_step then some new_stop else Option.none
  else
    let new_stop := current_price + trail_distance
    if new_stop < stopLoss.getD 0 - trail_step then some new_stop else Option.none

end SmartExitManager

/-! ### Partial exits (`core/partial_exits.py`,
`core/enhanced_partial_exits.py`)

The broker call `mt5_client.close_position_partial` is external; its
success for the level at list position `i` is the oracle `closeOk i`.
For the enhanced manager, `_check_trigger` ranges over six trigger
families whose inputs (time, regime service, market data) are external
to the manager; it is abstracted as a per-cycle predicate `trig`, so the
theorems below hold for every trigger function, the source's included. -/

/-- `partial_exits.PartialExitLevel`. -/
structure PartialExitLevel where
  trigger_price : ℚ
  exit_lots : ℚ
  percentage : ℚ
  executed : Bool := false
  priority : ℤ := 99
deriving Repr, DecidableEq

/-- Observable outcome of one `check_partial_exits` call: `noTrigger`
models returning `None`, `fired i lots pct` the success dict produced by
`_execute` for the level at position `i`, and `failed i` its failure
dict (broker rejected the partial close; `executed` is not set). -/
inductive PEOutcome where
  | noTrigger
  | fired (idx : ℕ) (exitLots percentage : ℚ)
  | failed (idx : ℕ)
deriving Repr, DecidableEq

namespace PartialExitManager

/-- The trigger test inlined in `check_partial_exits`. -/
def levelTriggered (ptype : String) (current_price : ℚ) (l : PartialExitLevel) : Bool :=
  (ptype == "BUY" && decide (current_price ≥ l.trigger_price)) ||
  (ptype == "SELL" && decide (current_price ≤ l.trigger_price))

/-- The loop of `check_partial_exits`, with `i` the list position of the
first element of the remaining suffix. -/
def checkFrom (ptype : String) (current_price : ℚ) (closeOk : ℕ → Bool) (i : ℕ) :
    List PartialExitLevel → List PartialExitLevel × PEOutcome
  | [] => ([], PEOutcome.noTrigger)
  | l :: ls =>
    if l.executed then
      let r := checkFrom ptype current_price closeOk (i + 1) ls
      (l :: r.1, r.2)
    else if levelTriggered ptype current_price l then
      if closeOk i then
        ({ l with executed := true } :: ls, PEOutcome.fired i l.exit_lots l.percentage)
      else (l :: ls, PEOutcome.failed i)
    else
      let r := checkFrom ptype current_price closeOk (i + 1) ls
      (l :: r.1, r.2)

/-- `PartialExitManager.check_partial_exits` over the level list stored
for the position's ticket.  The Python loop returns on the FIRST
non-executed level whose trigger holds; `_execute` marks the level
executed only when the broker call succeeds. -/
def check_partial_exits (ptype : String) (current_price : ℚ) (closeOk : ℕ → Bool)
    (levels : List PartialExitLevel) : List PartialExitLevel × PEOutcome :=
  checkFrom ptype current_price closeOk 0 levels

/-- Successive evaluation cycles of `check_partial_exits` over a
position's stored levels: each list entry carries that cycle's
`position["type"]`, current price, and broker-success oracle.  Returns
the final level list and every cycle's outcome. -/
def runChecks : List (String × ℚ × (ℕ → Bool)) → List PartialExitLevel →
    List PartialExitLevel × List PEOutcome
  | [], ls => (ls, [])
  | c :: cs, ls =>
    let r := check_partial_exits c.1 c.2.1 c.2.2 ls
    let rest := runChecks cs r.1
    (rest.1, r.2 :: rest.2)

end PartialExitManager

/-- `enhanced_partial_exits.PartialExitLevel` (trigger-family configs
are consumed only through `_check_trigger`, abstracted below). -/
structure EPLevel where
  id : String
  name : String
  percentage : ℚ
  priority : ℤ := 99
  executed : Bool := false
deriving Repr, DecidableEq

namespace EnhancedPartialExitManager

/-- The loop of `check_exit_triggers`, with `i` the list position of the
first element of the remaining suffix. -/
def checkTriggersFrom (trig : ℕ → EPLevel → Bool) (closeOk : ℕ → Bool) (i : ℕ) :
    List EPLevel → List EPLevel × List ℕ
  | [] => ([], [])
  | l :: ls =>
    if l.executed then
      let r := checkTriggersFrom trig closeOk (i + 1) ls
      (l :: r.1, r.2)
    else if trig i l then
      if closeOk i then
        let r := checkTriggersFrom trig closeOk (i + 1) ls
        ({ l with executed := true } :: r.1, i :: r.2)
      else
        let r := checkTriggersFrom trig closeOk (i + 1) ls
        (l :: r.1, r.2)
    else
      let r := checkTriggersFrom trig closeOk (i + 1) ls
      (l :: r.1, r.2)

/-- `EnhancedPartialExitManager.check_exit_triggers` over the stored
level list: every level is visited; a non-executed level whose trigger
holds is executed (broker success permitting) and its position is
appended to the returned executions, in list order. -/
def check_exit_triggers (trig : ℕ → EPLevel → Bool) (closeOk : ℕ → Bool)
    (levels : List EPLevel) : List EPLevel × List ℕ :=
  checkTriggersFrom trig closeOk 0 levels

end EnhancedPartialExitManager

/-! ### Strategy executor (`core/strategy_executor.py`, `main.py`) -/

/-- The fields of `StrategyConfig` that `start_strategy` and
`_build_status` read. -/
structure StrategyConfig where
  id : String
  name : String
  symbol : String
  timeframe : String
deriving Repr, DecidableEq

/-- One entry of `self.active_strategies`: the per-strategy mutable
run-state dict created by `start_strategy`. -/
structure ActiveRecord where
  config : StrategyConfig
  status : String
  started_at : ℕ
  last_check : Option ℕ
  trades_count : ℕ
  context : List (String × String)
deriving Repr, DecidableEq

/-- The `StrategyStatus` model returned by `_build_status`. -/
structure StrategyStatus where
  id : String
  name : String
  symbol : String
  timeframe : String
  status : String
  started_at : ℕ
  last_check : Option ℕ
  trades_count : ℕ
deriving Repr, DecidableEq

/-- Externally observable side effects of `start_strategy`:
the database persist and the pusher strategy-status event. -/
inductive ExecEvent where
  | persistStrategy (id : String)
  | emitStrategyStatus (id name status : String)
deriving Repr, DecidableEq

/-- Python dict lookup on a first-match association list. -/
def lookup {α : Type} (m : List (String × α)) (k : String) : Option α :=
  (m.find? (fun p => p.1 == k)).map Prod.snd

/-- Python `dict.setdefault`. -/
def setdefault {α : Type} (m : List (String × α)) (k : String) (v : α) :
    List (String × α) :=
  match lookup m k with
  | some _ => m
  | Option.none => m ++ [(k, v)]

/-- The executor's mutable maps: `self.active_strategies` and
`self.open_positions` (tickets only; their content is irrelevant to the
claims below). -/
structure ExecState where
  active_strategies : List (String × ActiveRecord)
  open_positions : List (String × List ℕ)
deriving Repr, DecidableEq

namespace StrategyExecutor

/-- `StrategyExecutor._build_status` (Python indexes the dict; `none`
models the `KeyError` on an absent id). -/
def build_status (st : ExecState) (strategy_id : String) : Option StrategyStatus :=
  (lookup st.active_strategies strategy_id).map (fun record =>
    { id := record.config.id, name := record.config.name,
      symbol := record.config.symbol, timeframe := record.config.timeframe,
      status := record.status, started_at := record.started_at,
      last_check := record.last_check, trades_count := record.trades_count })

/-- `StrategyExecutor.start_strategy` (body under the lock): if the id is
already active only a log line is written; otherwise the record is
created, the open-position slot defaulted, the strategy persisted, and a
status event emitted when a pusher emitter is configured.  Returns the
new state, `_build_status`'s result, and the emitted effects. -/
def start_strategy (st : ExecState) (strategy : StrategyConfig) (now : ℕ)
    (hasEmitter : Bool) : ExecState × Option StrategyStatus × List ExecEvent :=
  match lookup st.active_strategies strategy.id with
  | some _ => (st, build_status st strategy.id, [])
  | Option.none =>
      let record : ActiveRecord :=
        { config := strategy, status := "active", started_at := now,
          last_check := Option.none, trades_count := 0, context := [] }
      let st' : ExecState :=
        { active_strategies := st.active_strategies ++ [(strategy.id, record)],
          open_positions := setdefault st.open_positions strategy.id [] }
      let evs := ExecEvent.persistStrategy strategy.id ::
        (if hasEmitter then [ExecEvent.emitStrategyStatus strategy.id strategy.name "started"] else [])
      (st', build_status st' strategy.id, evs)

/-- The per-strategy body of `StrategyExecutor.run_cycle`, looping over
`self.active_strategies`.  `evalStrat` abstracts
`_evaluate_strategy` followed by `_execute_trade`: `Except.ok true`
means a signal fired and the trade succeeded (`trades_count` increments),
`Except.ok false` no successful trade, `Except.error e` a Python
exception raised while evaluating that strategy.  The source has no
try/except here: an exception aborts the loop — the remaining records
are returned untouched, their evaluation skipped, and the error
propagates (second component) out of `run_cycle` into `main._monitor_loop`,
which does not catch it either. -/
def run_cycle (evalStrat : String → Except String Bool) (now : ℕ) :
    List (String × ActiveRecord) → List (String × ActiveRecord) × Option String
  | [] => ([], Option.none)
  | (sid, data) :: rest =>
      if data.status ≠ "active" then
        let r := run_cycle evalStrat now rest
        ((sid, data) :: r.1, r.2)
      else
        match evalStrat sid with
        | Except.error e => ((sid, data) :: rest, some e)
        | Except.ok traded =>
            let data' : ActiveRecord :=
              { data with trades_count := data.trades_count + (if traded then 1 else 0),
                          last_check := some now }
            let r := run_cycle evalStrat now rest
            ((sid, data') :: r.1, r.2)

/-- The record update applied by a successful pass of the cycle body. -/
def cycleUpdate (evalStrat : String → Except String Bool) (now : ℕ)
    (e : String × ActiveRecord) : String × ActiveRecord :=
  if e.2.status ≠ "active" then e
  else match evalStrat e.1 with
    | Except.error _ => e
    | Except.ok traded =>
        (e.1, { e.2 with trades_count := e.2.trades_count + (if traded then 1 else 0),
                         last_check := some now })

end StrategyExecutor

/-! ### Advisory gate (`ai/supervisor.py`) -/

/-- `supervisor.Decision`. -/
structure Decision where
  action : String
  reason : String
  risks : List String := []
  suggestions : List String := []
  score : Option ℚ := Option.none
deriving Repr, DecidableEq

namespace Supervisor

/-- `Supervisor.evaluate`: `mode` is the configured SUPERVISOR_MODE,
`isEnabled` the result of `self.enabled()` (mode off or missing API key
gives `false`), and `llmResult` the outcome of `self._call_llm(context)`
(`Except.error` models the raised exception on call failure/timeout). -/
def evaluate (mode : String) (isEnabled : Bool) (llmResult : Except String Decision) :
    Decision :=
  if ¬ isEnabled then
    { action := "allow", reason := "Supervisor disabled or not configured" }
  else
    match llmResult with
    | Except.error e =>
        let action := if mode = "enforce" then "require_confirmation" else "allow"
        { action := action, reason := "LLM supervisor unavailable: " ++ e,
          risks := ["llm_unavailable"],
          suggestions := ["Check LLM provider configuration",
                          "Reduce dependency on external gating"],
          score := Option.none }
    | Except.ok decision =>
        if mode = "enforce" then decision
        else if decision.action = "deny" ∨ decision.action = "require_confirmation" then
          { decision with
            action := "allow"
            suggestions := "Supervisor recommended caution; running in observe mode"
              :: decision.suggestions }
        else decision

end Supervisor

/-! ### News filter (`core/news_filter.py`)

Timestamps are modelled in whole minutes since the UTC epoch; `now`
is the wall clock at the `check_news_blackout` call. -/

/-- One economic-calendar event as consumed by the blackout loop:
`time = none` models a missing or unparsable timestamp, `currency =
none` a falsy currency slot. -/
structure NewsEvent where
  title : String
  currency : Option String
  impact : String
  time : Option ℤ
deriving Repr, DecidableEq

/-- The `newsFilter` rule dict with its `dict.get` defaults resolved
(`enabled=False`, pauses 30, `highImpactOnly=True`). -/
structure NewsConfig where
  enabled : Bool := false
  pauseBeforeMinutes : ℤ := 30
  pauseAfterMinutes : ℤ := 30
  highImpactOnly : Bool := true
deriving Repr, DecidableEq

/-- Python `s.endswith(suffix)`. -/
def strEndsWith (s suffix : String) : Bool := List.isSuffixOf suffix.data s.data

namespace NewsFilter

/-- `NewsFilter._extract_currencies`. -/
def extract_currencies (symbol : String) : List String :=
  let s : String := ⟨(pyUpper symbol).data.filter (fun c => c ≠ '.')⟩
  if s.length = 6 then [s.take 3, s.drop 3]
  else if strEndsWith s "USD" then [s.dropRight 3, "USD"]
  else [s.take 3]

/-- `NewsFilter._fallback_events`: one high-impact USD event at 13:30
UTC of the day after `now` (`now.replace(hour=13, minute=30) + 1 day`;
810 = 13*60+30 minutes past midnight). -/
def fallback_events (now : ℕ) : List NewsEvent :=
  let base : ℤ := 1440 * ((now : ℤ) / 1440) + 810
  [{ title := "Non-Farm Payrolls", currency := some "USD", impact := "high",
     time := some (base + 1440) }]

/-- `NewsFilter._filtered_events`. -/
def filtered_events (events : List NewsEvent) (high_only : Bool) : List NewsEvent :=
  if ¬ high_only then events
  else events.filter (fun e => pyLower e.impact = "high" ∨ pyLower e.impact = "red")

/-- `NewsFilter.check_news_blackout` for a cycle in which `_load_events`
returned the raw cache `cache` (after its TTL/fetch handling). -/
def check_news_blackout_with (cache : List NewsEvent) (symbol : String)
    (config : NewsConfig) (now : ℕ) : Bool :=
  if ¬ config.enabled then false
  else
    let currencies := extract_currencies symbol
    if currencies.isEmpty then false
    else
      let events := filtered_events cache config.highImpactOnly
      if events.isEmpty then false
      else
        let wStart : ℤ := (now : ℤ) - config.pauseBeforeMinutes
        let wEnd : ℤ := (now : ℤ) + config.pauseAfterMinutes
        events.any (fun e =>
          match e.time with
          | Option.none => false
          | some t =>
              (match e.currency with
               | some c => decide (pyUpper c ∈ currencies)
               | Option.none => true) && decide (wStart ≤ t ∧ t ≤ wEnd))

/-- `check_news_blackout` in the cycle where the calendar request raised
(`except` branch of `_load_events`): the cache becomes
`_fallback_events(now)`. -/
def check_news_blackout_fetchFail (symbol : String) (config : NewsConfig) (now : ℕ) : Bool :=
  check_news_blackout_with (fallback_events now) symbol config now

/-- `check_news_blackout` in the cycle where the calendar responded with
a non-200 status: the cache becomes `[]`. -/
def check_news_blackout_non200 (symbol : String) (config : NewsConfig) (now : ℕ) : Bool :=
  check_news_blackout_with [] symbol config now

end NewsFilter

end FX

namespace FX

/-! ### Helper lemmas -/

/-- Executed-flag monotonicity relation between a level list before and
after one evaluation pass. -/
def execMono (a b : PartialExitLevel) : Prop := a.executed = true → b.executed = true

namespace PartialExitManager

theorem checkFrom_cons_exec {pt : String} {pr : ℚ} {ok : ℕ → Bool} {i : ℕ}
    {l : PartialExitLevel} {t : List PartialExitLevel} (h1 : l.executed = true) :
    checkFrom pt pr ok i (l :: t) =
      (l :: (checkFrom pt pr ok (i + 1) t).1, (checkFrom pt pr ok (i + 1) t).2) := by
  simp [checkFrom, h1]

theorem checkFrom_cons_fired {pt : String} {pr : ℚ} {ok : ℕ → Bool} {i : ℕ}
    {l : PartialExitLevel} {t : List PartialExitLevel} (h1 : l.executed = false)
    (h2 : levelTriggered pt pr l = true) (h3 : ok i = true) :
    checkFrom pt pr ok i (l :: t) =
      ({ l with executed := true } :: t, PEOutcome.fired i l.exit_lots l.percentage) := by
  simp [checkFrom, h1, h2, h3]

theorem checkFrom_cons_failed {pt : String} {pr : ℚ} {ok : ℕ → Bool} {i : ℕ}
    {l : PartialExitLevel} {t : List PartialExitLevel} (h1 : l.executed = false)
    (h2 : levelTriggered pt pr l = true) (h3 : ok i = false) :
    checkFrom pt pr ok i (l :: t) = (l :: t, PEOutcome.failed i) := by
  simp [checkFrom, h1, h2, h3]

theorem checkFrom_cons_skip {pt : String} {pr : ℚ} {ok : ℕ → Bool} {i : ℕ}
    {l : PartialExitLevel} {t : List PartialExitLevel} (h1 : l.executed = false)
    (h2 : levelTriggered pt pr l = false) :
    checkFrom pt pr ok i (l :: t) =
      (l :: (checkFrom pt pr ok (i + 1) t).1, (checkFrom pt pr ok (i + 1) t).2) := by
  simp [checkFrom, h1, h2]

theorem checkFrom_mono (pt : String) (pr : ℚ) (ok : ℕ → Bool) :
    ∀ (ls : List PartialExitLevel) (i : ℕ),
      List.Forall₂ execMono ls (checkFrom pt pr ok i ls).1 := by
  intro ls
  induction ls with
  | nil => intro i; simp [checkFrom, List.Forall₂.nil]
  | cons l t ih =>
      intro i
      rcases h1 : l.executed with _ | _
      · rcases h2 : levelTriggered pt pr l with _ | _
        · rw [checkFrom_cons_skip h1 h2]
          exact List.Forall₂.cons (fun h => h) (ih (i + 1))
        · rcases h3 : ok i with _ | _
          · rw [checkFrom_cons_failed h1 h2 h3]
            exact List.Forall₂.cons (fun h => h)
              (List.forall₂_same.mpr (fun x _ h => h))
          · rw [checkFrom_cons_fired h1 h2 h3]
            exact List.Forall₂.cons (fun _ => rfl)
              (List.forall₂_same.mpr (fun x _ h => h))
      · rw [checkFrom_cons_exec h1]
        exact List.Forall₂.cons (fun h => h) (ih (i + 1))

theorem checkFrom_fired (pt : String) (pr : ℚ) (ok : ℕ → Bool) :
    ∀ (ls : List PartialExitLevel) (i j : ℕ) (lots pct : ℚ),
      (checkFrom pt pr ok i ls).2 = PEOutcome.fired j lots pct →
      ∃ k, j = i + k ∧ ∃ hk : k < ls.length,
        (ls[k]).executed = false ∧ levelTriggered pt pr (ls[k]) = true
        ∧ ok j = true
        ∧ lots = (ls[k]).exit_lots ∧ pct = (ls[k]).percentage
        ∧ (checkFrom pt pr ok i ls).1 = ls.set k { ls[k] with executed := true }
        ∧ ∀ m (hm : m < ls.length), m < k →
            (ls[m]).executed = true ∨ levelTriggered pt pr (ls[m]) = false := by
  intro ls
  induction ls with
  | nil => intro i j lots pct h; simp [checkFrom] at h
  | cons l t ih =>
      intro i j lots pct h
      rcases h1 : l.executed with _ | _
      · rcases h2 : levelTriggered pt pr l with _ | _
        · rw [checkFrom_cons_skip h1 h2] at h ⊢
          obtain ⟨k, hjk, hk, hex, htr, hok, hlots, hpct, hres, hfirst⟩ :=
            ih (i + 1) j lots pct h
          refine ⟨k + 1, by omega, by simpa using hk, ?_⟩
          simp only [List.getElem_cons_succ, List.set_cons_succ]
          refine ⟨hex, htr, hok, hlots, hpct, by simp [hres], ?_⟩
          intro m hm hmk
          cases m with
          | zero => exact Or.inr (by simpa using h2)
          | succ m => simpa using hfirst m (by simpa using hm) (by omega)
        · rcases h3 : ok i with _ | _
          · rw [checkFrom_cons_failed h1 h2 h3] at h
            simp at h
          · rw [checkFrom_cons_fired h1 h2 h3] at h ⊢
            simp only [PEOutcome.fired.injEq] at h
            obtain ⟨rfl, rfl, rfl⟩ := h
            refine ⟨0, by omega, by simp, ?_⟩
            simp only [List.getElem_cons_zero, List.set_cons_zero]
            refine ⟨h1, h2, h3, by trivial, by trivial, by trivial, ?_⟩
            intro m hm hmk
            omega
      · rw [checkFrom_cons_exec h1] at h ⊢
        obtain ⟨k, hjk, hk, hex, htr, hok, hlots, hpct, hres, hfirst⟩ :=
          ih (i + 1) j lots pct h
        refine ⟨k + 1, by omega, by simpa using hk, ?_⟩
        simp only [List.getElem_cons_succ, List.set_cons_succ]
        refine ⟨hex, htr, hok, hlots, hpct, by simp [hres], ?_⟩
        intro m hm hmk
        cases m with
        | zero => exact Or.inl h1
        | succ m => simpa using hfirst m (by simpa using hm) (by omega)

theorem checkFrom_noTrigger (pt : String) (pr : ℚ) (ok : ℕ → Bool) :
    ∀ (ls : List PartialExitLevel) (i : ℕ),
      (checkFrom pt pr ok i ls).2 = PEOutcome.noTrigger →
      (checkFrom pt pr ok i ls).1 = ls
      ∧ ∀ l ∈ ls, l.executed = false → levelTriggered pt pr l = false := by
  intro ls
  induction ls with
  | nil => intro i _; simp [checkFrom]
  | cons l t ih =>
      intro i h
      rcases h1 : l.executed with _ | _
      · rcases h2 : levelTriggered pt pr l with _ | _
        · rw [checkFrom_cons_skip h1 h2] at h ⊢
          obtain ⟨hres, hall⟩ := ih (i + 1) (by simpa using h)
          refine ⟨by simp [hres], ?_⟩
          intro x hx hex
          rcases List.mem_cons.mp hx with rfl | hx
          · exact h2
          · exact hall x hx hex
        · rcases h3 : ok i with _ | _
          · rw [checkFrom_cons_failed h1 h2 h3] at h
            simp at h
          · rw [checkFrom_cons_fired h1 h2 h3] at h
            simp at h
      · rw [checkFrom_cons_exec h1] at h ⊢
        obtain ⟨hres, hall⟩ := ih (i + 1) (by simpa using h)
        refine ⟨by simp [hres], ?_⟩
        intro x hx hex
        rcases List.mem_cons.mp hx with rfl | hx
        · exact absurd h1 (by simp [hex])
        · exact hall x hx hex

theorem check_mono (pt : String) (pr : ℚ) (ok : ℕ → Bool)
    (levels : List PartialExitLevel) (i : ℕ) (hi : i < levels.length)
    (hi2 : i < (check_partial_exits pt pr ok levels).1.length)
    (hex : (levels[i]).executed = true) :
    ((check_partial_exits pt pr ok levels).1[i]).executed = true := by
  have hmono := checkFrom_mono pt pr ok levels 0
  have hget := (List.forall₂_iff_get.mp hmono).2 i hi (by
    have := hmono.length_eq
    omega)
  simp only [List.get_eq_getElem] at hget
  exact hget hex

theorem check_len (pt : String) (pr : ℚ) (ok : ℕ → Bool)
    (levels : List PartialExitLevel) :
    (check_partial_exits pt pr ok levels).1.length = levels.length :=
  (checkFrom_mono pt pr ok levels 0).length_eq.symm

theorem check_fired_not_executed (pt : String) (pr : ℚ) (ok : ℕ → Bool)
    (levels : List PartialExitLevel) (j : ℕ) (lots pct : ℚ)
    (h : (check_partial_exits pt pr ok levels).2 = PEOutcome.fired j lots pct) :
    ∃ hj : j < levels.length, (levels[j]).executed = false := by
  obtain ⟨k, hjk, hk, hex, -⟩ := checkFrom_fired pt pr ok levels 0 j lots pct h
  refine ⟨by omega, ?_⟩
  have : j = k := by omega
  subst this
  exact hex

theorem runChecks_keep (cycles : List (String × ℚ × (ℕ → Bool))) :
    ∀ (levels : List PartialExitLevel) (i : ℕ) (hi : i < levels.length),
      (levels[i]).executed = true →
      ((runChecks cycles levels).1.length = levels.length
        ∧ ∃ hi2 : i < (runChecks cycles levels).1.length,
            ((runChecks cycles levels).1[i]).executed = true)
      ∧ ∀ out ∈ (runChecks cycles levels).2, ∀ lots pct,
          out ≠ PEOutcome.fired i lots pct := by
  induction cycles with
  | nil =>
      intro levels i hi hex
      exact ⟨⟨rfl, hi, hex⟩, by simp [runChecks]⟩
  | cons c cs ih =>
      intro levels i hi hex
      have hlen := check_len c.1 c.2.1 c.2.2 levels
      have hex2 := check_mono c.1 c.2.1 c.2.2 levels i hi (by omega) hex
      obtain ⟨⟨hlen2, hi3, hkeep⟩, hnof⟩ :=
        ih (check_partial_exits c.1 c.2.1 c.2.2 levels).1 i (by omega) hex2
      refine ⟨⟨by simp [runChecks]; omega, ?_, ?_⟩, ?_⟩
      · simp only [runChecks]
        omega
      · simp only [runChecks]
        exact hkeep
      · intro out hout lots pct
        simp only [runChecks, List.mem_cons] at hout
        rcases hout with rfl | hout
        · intro hfe
          obtain ⟨hj, hunex⟩ :=
            check_fired_not_executed c.1 c.2.1 c.2.2 levels i lots pct hfe
          rw [hex] at hunex
          cases hunex
        · exact hnof out hout lots pct

end PartialExitManager

namespace EnhancedPartialExitManager

theorem checkTriggersFrom_eq (trig : ℕ → EPLevel → Bool) (ok : ℕ → Bool) :
    ∀ (ls : List EPLevel) (i : ℕ),
      checkTriggersFrom trig ok i ls =
        ((List.enumFrom i ls).map (fun p =>
            if p.2.executed = false ∧ trig p.1 p.2 = true ∧ ok p.1 = true
            then { p.2 with executed := true } else p.2),
         ((List.enumFrom i ls).filter (fun p =>
            !p.2.executed && trig p.1 p.2 && ok p.1)).map Prod.fst) := by
  intro ls
  induction ls with
  | nil => intro i; simp [checkTriggersFrom]
  | cons l t ih =>
      intro i
      rcases h1 : l.executed with _ | _
      · rcases h2 : trig i l with _ | _
        · simp [checkTriggersFrom, h1, h2, ih (i + 1), List.enumFrom_cons]
        · rcases h3 : ok i with _ | _
          · simp [checkTriggersFrom, h1, h2, h3, ih (i + 1), List.enumFrom_cons]
          · simp [checkTriggersFrom, h1, h2, h3, ih (i + 1), List.enumFrom_cons]
      · simp [checkTriggersFrom, h1, ih (i + 1), List.enumFrom_cons]

theorem check_keep (trig : ℕ → EPLevel → Bool) (ok : ℕ → Bool) (els : List EPLevel)
    (j : ℕ) (hj : j < els.length) (hex : (els[j]).executed = true) :
    (∃ hj2 : j < (check_exit_triggers trig ok els).1.length,
        ((check_exit_triggers trig ok els).1[j]).executed = true)
    ∧ j ∉ (check_exit_triggers trig ok els).2 := by
  have heq := checkTriggersFrom_eq trig ok els 0
  constructor
  · have hlen : (check_exit_triggers trig ok els).1.length = els.length := by
      simp [check_exit_triggers, heq]
    refine ⟨by omega, ?_⟩
    have hj2 : j < (check_exit_triggers trig ok els).1.length := by omega
    simp only [check_exit_triggers, heq] at hj2 ⊢
    rw [List.getElem_map, List.getElem_enumFrom]
    simp only [Nat.zero_add]
    rw [if_neg]
    · exact hex
    · rintro ⟨hfalse, -⟩
      rw [hex] at hfalse
      cases hfalse
  · intro hmem
    simp only [check_exit_triggers, heq, List.mem_map] at hmem
    obtain ⟨p, hpfilter, hpfst⟩ := hmem
    rw [List.mem_filter] at hpfilter
    obtain ⟨hpmem, hpcond⟩ := hpfilter
    obtain ⟨p1, p2⟩ := p
    simp only at hpfst
    subst hpfst
    obtain ⟨-, -, hsnd⟩ := List.mem_enumFrom hpmem
    simp only [Nat.sub_zero] at hsnd
    rw [hsnd] at hpcond
    simp only [Bool.and_eq_true, Bool.not_eq_eq_eq_not, Bool.not_true] at hpcond
    rw [hex] at hpcond
    simp at hpcond

end EnhancedPartialExitManager

namespace ConditionEvaluator

theorem isSome_evaluate (conds : List Condition) (logic : String) (inds : Indicators) :
    (evaluate conds logic inds).isSome =
      (if pyUpper logic = "AND"
       then (conds.map fun c => evalCondition c inds).all id
       else (conds.map fun c => evalCondition c inds).any id) := by
  simp only [evaluate]
  split_ifs with h1 h2 h3 <;> simp_all

end ConditionEvaluator

namespace DynamicRiskManager

theorem clamp_bounds (lot : ℚ) (cfg : DynConfig)
    (h : cfg.minLotSize.getD (1/100) ≤ cfg.maxLotSize.getD 2) :
    cfg.minLotSize.getD (1/100) ≤ clamp lot cfg ∧ clamp lot cfg ≤ cfg.maxLotSize.getD 2 := by
  unfold clamp
  exact ⟨le_max_left _ _, max_le h (min_le_right _ _)⟩

theorem kelly_bounds (hist : List ℚ) (acc : AccountInfo) (cfg : DynConfig)
    (h : cfg.minLotSize.getD (1/100) ≤ cfg.maxLotSize.getD 2) :
    cfg.minLotSize.getD (1/100) ≤ kelly hist acc cfg
      ∧ kelly hist acc cfg ≤ cfg.maxLotSize.getD 2 := by
  simp only [kelly]
  split_ifs <;> first
    | exact ⟨le_refl _, h⟩
    | exact clamp_bounds _ _ h

theorem atr_bounds (acc : AccountInfo) (cfg : DynConfig) (mkt : MarketState)
    (h : cfg.minLotSize.getD (1/100) ≤ cfg.maxLotSize.getD 2) :
    cfg.minLotSize.getD (1/100) ≤ atr_based acc cfg mkt
      ∧ atr_based acc cfg mkt ≤ cfg.maxLotSize.getD 2 := by
  simp only [atr_based]
  split_ifs
  · exact clamp_bounds _ _ h
  · exact clamp_bounds _ _ h

theorem vol_bounds (acc : AccountInfo) (cfg : DynConfig) (mkt : MarketState)
    (h : cfg.minLotSize.getD (1/100) ≤ cfg.maxLotSize.getD 2) :
    cfg.minLotSize.getD (1/100) ≤ volatility_based acc cfg mkt
      ∧ volatility_based acc cfg mkt ≤ cfg.maxLotSize.getD 2 := by
  simp only [volatility_based]
  exact clamp_bounds _ _ h

theorem equity_bounds (acc : AccountInfo) (cfg : DynConfig)
    (h : cfg.minLotSize.getD (1/100) ≤ cfg.maxLotSize.getD 2) :
    cfg.minLotSize.getD (1/100) ≤ equity_based acc cfg
      ∧ equity_based acc cfg ≤ cfg.maxLotSize.getD 2 := by
  simp only [equity_based]
  exact clamp_bounds _ _ h

end DynamicRiskManager

end FX

namespace FX

/-! ### Claims -/

/-- C1: the spec states that `crosses_above` holds iff
`prev_left ≤ prev_right ∧ curr_left > curr_right`, and that
`crosses_above(prevLeft=1.2, currLeft=1.3, prevRight=1.1, currRight=1.25)`
is false.  The source's `_evaluate_condition` evaluates `crosses_above` as
a plain `>` on the current values (the snapshot carries no previous
values at all): on that very input — snapshot `x = 1.3`, `y = 1.25` with
prior bar `x = 1.2`, `y = 1.1` — the code yields `true` while the
specified crossing semantics yield `false`. -/
theorem C1_crosses_above_code_divergence :
    ConditionEvaluator.evaluate_condition
      { indicator := "x", comparator := "crosses_above", value := CondValue.str "y" }
      [("x", 13/10), ("y", 5/4)] = true
    ∧ specCrossesAbove (6/5) (13/10) (11/10) (5/4) = false := by
  constructor
  · simp [ConditionEvaluator.evaluate_condition, ConditionEvaluator.resolve_value,
      getInd, show pyLower "x" = "x" from rfl, show pyLower "y" = "y" from rfl]
    norm_num
  · simp only [specCrossesAbove]
    norm_num

/-- C2 counterexample: the fixed-lot method does not clamp.  With
`lotSize = 5` configured and bounds `[0.01, 1]`, both
`RiskManager.calculate_position_size` and the dynamic manager's fixed
method return `5`, outside `[minLot, maxLot]`. -/
theorem C2_fixed_lot_bypasses_clamp_counterexample :
    RiskManager.calculate_position_size { balance := some 10000 }
      { lotSize := some 5, minLot := some (1/100), maxLot := some 1 } = 5
    ∧ DynamicRiskManager.calculate_position_size [] { balance := some 10000 }
        { method := "fixed", lotSize := some 5, minLotSize := some (1/100),
          maxLotSize := some 1 } {} = 5
    ∧ ¬ ((5 : ℚ) ≤ 1) := by
  refine ⟨?_, ?_, by norm_num⟩
  · simp [RiskManager.calculate_position_size, pyTruthy]
  · simp [DynamicRiskManager.calculate_position_size]

/-- C2 (amended): the adaptive sizing methods (Kelly, ATR-based,
volatility-based, equity-percentage) always clamp to
`[minLotSize, maxLotSize]` (degenerate inputs — zero ATR/stop distance,
short history — fall back to `minLotSize`); `RiskManager`'s percent-risk
path clamps to `[minLot, maxLot]`, but its degenerate non-positive
pip-value/stop-pips case returns the hardcoded `0.01` (not the configured
`minLot`), and the fixed-lot paths of both managers return the configured
lot literal without clamping. -/
theorem C2_position_size_clamping_amended (acc : AccountInfo) (r : RiskRules)
    (hist : List ℚ) (cfg : DynConfig) (mkt : MarketState) :
    (pyTruthy r.lotSize = true →
      RiskManager.calculate_position_size acc r = r.lotSize.getD 0)
    ∧ (pyTruthy r.lotSize = false →
        (r.pipValue.getD 10 ≤ 0 ∨ r.stopLossPips.getD 30 ≤ 0) →
        RiskManager.calculate_position_size acc r = 1/100)
    ∧ (pyTruthy r.lotSize = false →
        ¬ (r.pipValue.getD 10 ≤ 0 ∨ r.stopLossPips.getD 30 ≤ 0) →
        r.minLot.getD (1/100) ≤ r.maxLot.getD 1 →
        r.minLot.getD (1/100) ≤ RiskManager.calculate_position_size acc r
          ∧ RiskManager.calculate_position_size acc r ≤ r.maxLot.getD 1)
    ∧ ((cfg.method = "kelly_criterion" ∨ cfg.method = "atr_based" ∨
          cfg.method = "volatility_based" ∨ cfg.method = "account_equity") →
        cfg.minLotSize.getD (1/100) ≤ cfg.maxLotSize.getD 2 →
        cfg.minLotSize.getD (1/100) ≤
            DynamicRiskManager.calculate_position_size hist acc cfg mkt
          ∧ DynamicRiskManager.calculate_position_size hist acc cfg mkt ≤
              cfg.maxLotSize.getD 2)
    ∧ (cfg.method = "fixed" →
        DynamicRiskManager.calculate_position_size hist acc cfg mkt =
          cfg.lotSize.getD (1/100)) := by
  refine ⟨?_, ?_, ?_, ?_, ?_⟩
  · intro h
    simp [RiskManager.calculate_position_size, h]
  · intro h hdeg
    simp [RiskManager.calculate_position_size, h, hdeg]
  · intro h hdeg hmm
    simp only [RiskManager.calculate_position_size, h, Bool.false_eq_true, if_false,
      hdeg, if_neg]
    exact ⟨le_max_right _ _, max_le (min_le_right _ _) hmm⟩
  · intro hm hle
    rcases hm with hm | hm | hm | hm <;>
      simp only [DynamicRiskManager.calculate_position_size, hm, if_pos]
    · exact DynamicRiskManager.kelly_bounds hist acc cfg hle
    · exact DynamicRiskManager.atr_bounds acc cfg mkt hle
    · exact DynamicRiskManager.vol_bounds acc cfg mkt hle
    · exact DynamicRiskManager.equity_bounds acc cfg hle
  · intro hm
    simp [DynamicRiskManager.calculate_position_size, hm]

/-- C2 witness: the amended clamping theorem applied to a concrete
ATR-based configuration with default bounds. -/
theorem C2_position_size_clamping_witness :
    (1/100 : ℚ) ≤ DynamicRiskManager.calculate_position_size []
        { balance := some 10000 } { method := "atr_based" } {}
    ∧ DynamicRiskManager.calculate_position_size []
        { balance := some 10000 } { method := "atr_based" } {} ≤ 2 :=
  (C2_position_size_clamping_amended { balance := some 10000 } {} []
    { method := "atr_based" } {}).2.2.2.1 (Or.inr (Or.inl rfl)) (by norm_num)

/-- C3: once a partial-exit level's `executed` flag is set it is never
reset, and the level never fires on any later evaluation cycle even if
its trigger stays satisfied.  For `PartialExitManager` this holds across
any sequence of `check_partial_exits` cycles (any position side, price,
and broker-success oracle per cycle); for
`EnhancedPartialExitManager.check_exit_triggers` a single pass never
touches nor reports an already-executed level, for every trigger
predicate and broker oracle. -/
theorem C3_executed_level_is_final
    (cycles : List (String × ℚ × (ℕ → Bool))) (levels : List PartialExitLevel)
    (i : ℕ) (hi : i < levels.length) (hex : (levels[i]).executed = true) :
    (∃ hi2 : i < (PartialExitManager.runChecks cycles levels).1.length,
        ((PartialExitManager.runChecks cycles levels).1[i]).executed = true)
    ∧ (∀ out ∈ (PartialExitManager.runChecks cycles levels).2, ∀ lots pct,
        out ≠ PEOutcome.fired i lots pct)
    ∧ (∀ (trig : ℕ → EPLevel → Bool) (ok : ℕ → Bool) (els : List EPLevel)
        (j : ℕ) (hj : j < els.length), (els[j]).executed = true →
        (∃ hj2 : j < (EnhancedPartialExitManager.check_exit_triggers trig ok els).1.length,
            ((EnhancedPartialExitManager.check_exit_triggers trig ok els).1[j]).executed = true)
        ∧ j ∉ (EnhancedPartialExitManager.check_exit_triggers trig ok els).2) := by
  obtain ⟨⟨hlen, hkeep⟩, hnof⟩ := PartialExitManager.runChecks_keep cycles levels i hi hex
  exact ⟨hkeep, hnof, fun trig ok els j hj hexe =>
    EnhancedPartialExitManager.check_keep trig ok els j hj hexe⟩

/-- C3 witness: a single already-executed level whose price trigger is
satisfied on a later BUY cycle stays executed and is never reported
fired. -/
theorem C3_executed_level_is_final_witness :
    (∃ hi2 : 0 < (PartialExitManager.runChecks [("BUY", 5, fun _ => true)]
        [{ trigger_price := 1, exit_lots := 2, percentage := 100,
           executed := true, priority := 1 }]).1.length,
      ((PartialExitManager.runChecks [("BUY", 5, fun _ => true)]
        [{ trigger_price := 1, exit_lots := 2, percentage := 100,
           executed := true, priority := 1 }]).1[0]).executed = true)
    ∧ ∀ out ∈ (PartialExitManager.runChecks [("BUY", 5, fun _ => true)]
        [{ trigger_price := 1, exit_lots := 2, percentage := 100,
           executed := true, priority := 1 }]).2, ∀ lots pct,
        out ≠ PEOutcome.fired 0 lots pct := by
  have h := C3_executed_level_is_final [("BUY", 5, fun _ => true)]
    [{ trigger_price := 1, exit_lots := 2, percentage := 100,
       executed := true, priority := 1 }] 0 (by decide) (by decide)
  exact ⟨h.1, h.2.1⟩

/-- C4: `update_trailing_stop` either returns no change or the stop
`currentPrice ∓ trailDistance` (minus for BUY, plus otherwise), and only
when that new stop clears the stored stop by strictly more than the
configured step; with a nonnegative step the returned stop therefore
strictly improves the stored stop on both position sides, so a worsening
stop is always rejected. -/
theorem C4_trailing_stop_favorable_only (ptype : String) (stopLoss : Option ℚ)
    (price : ℚ) (cfg : TrailConfig) (point : Option ℚ) (s : ℚ)
    (h : SmartExitManager.update_trailing_stop ptype stopLoss price cfg point = some s) :
    (ptype = "BUY" →
      s = price - (cfg.distance.getD 30) * point.getD (1/10000) * 10
      ∧ stopLoss.getD 0 + (cfg.step.getD 10) * point.getD (1/10000) * 10 < s
      ∧ (0 ≤ (cfg.step.getD 10) * point.getD (1/10000) * 10 → stopLoss.getD 0 < s))
    ∧ (ptype ≠ "BUY" →
      s = price + (cfg.distance.getD 30) * point.getD (1/10000) * 10
      ∧ s < stopLoss.getD 0 - (cfg.step.getD 10) * point.getD (1/10000) * 10
      ∧ (0 ≤ (cfg.step.getD 10) * point.getD (1/10000) * 10 → s < stopLoss.getD 0)) := by
  constructor
  · intro hb
    simp only [SmartExitManager.update_trailing_stop, hb, if_pos] at h
    split_ifs at h with hcond
    cases h
    refine ⟨rfl, hcond, fun hstep => by linarith⟩
  · intro hb
    simp only [SmartExitManager.update_trailing_stop, if_neg hb] at h
    split_ifs at h with hcond
    cases h
    refine ⟨rfl, hcond, fun hstep => by linarith⟩

/-- C4 witness: a BUY position with stop 100, price 200, trail distance
3 and step 1 (point 1) moves the stop to 170, a strict improvement. -/
theorem C4_trailing_stop_favorable_only_witness :
    (100 : ℚ) < 170
    ∧ SmartExitManager.update_trailing_stop "BUY" (some 100) 200
        { distance := some 3, step := some 1 } (some 1) = some 170 := by
  have h : SmartExitManager.update_trailing_stop "BUY" (some 100) 200
      { distance := some 3, step := some 1 } (some 1) = some 170 := by
    norm_num [SmartExitManager.update_trailing_stop]
  refine ⟨?_, h⟩
  have h2 := (C4_trailing_stop_favorable_only "BUY" (some 100) 200
    { distance := some 3, step := some 1 } (some 1) 170 h).1 rfl
  have h3 := h2.2.2 (by norm_num)
  simpa using h3

/-- C5 counterexample: a condition carrying the confirmation metadata
`required = true` on the non-primary timeframe H4 fails
(`rsi > 70` with `rsi = 50`), yet under `logic = OR` with a passing
second condition the evaluator still yields a BUY signal — the
`required`/timeframe marks are never read by `evaluate`, so a failing
required condition does not force overall failure. -/
theorem C5_required_flag_ignored_counterexample :
    ConditionEvaluator.evaluate
      [ { base := { indicator := "rsi", comparator := "greater_than",
                    value := CondValue.num 70 },
          mtfTimeframe := some "H4", mtfRequired := true },
        { base := { indicator := "close", comparator := "greater_than",
                    value := CondValue.num 1 } } ]
      "OR" [("rsi", 50), ("close", 2)] = some "BUY" := by
  simp [ConditionEvaluator.evaluate, ConditionEvaluator.evalCondition,
    ConditionEvaluator.evaluate_condition, ConditionEvaluator.resolve_value,
    ConditionEvaluator.resolve_direction, getInd,
    show pyLower "rsi" = "rsi" from rfl, show pyLower "close" = "close" from rfl,
    show pyUpper "OR" = "OR" from rfl,
    show pyLower "" = "" from rfl, pyInStr, containsSubAux]

/-- C5 (amended): with `logic = AND` the evaluator yields a signal iff
every condition holds, and with `logic = OR` iff at least one condition
holds; the `required`/timeframe confirmation marks carried by conditions
are ignored (no condition can force failure beyond the plain AND/OR
reduction). -/
theorem C5_and_or_reduction_amended (conds : List Condition) (inds : Indicators) :
    ((ConditionEvaluator.evaluate conds "AND" inds).isSome = true ↔
      ∀ c ∈ conds, ConditionEvaluator.evalCondition c inds = true)
    ∧ ((ConditionEvaluator.evaluate conds "OR" inds).isSome = true ↔
      ∃ c ∈ conds, ConditionEvaluator.evalCondition c inds = true) := by
  constructor
  · rw [ConditionEvaluator.isSome_evaluate,
      if_pos (show pyUpper "AND" = "AND" from rfl)]
    simp [List.all_eq_true]
  · rw [ConditionEvaluator.isSome_evaluate,
      if_neg (show ¬ pyUpper "OR" = "AND" by decide)]
    simp [List.any_eq_true]

/-- C6 counterexample: with two active strategies where the first one's
evaluation raises, `run_cycle` returns the propagated error and leaves
BOTH records untouched — in particular the second strategy's
`last_check` is never set, i.e. it was not evaluated in that cycle,
contradicting "the exception is caught per-strategy and every other
strategy is still evaluated". -/
theorem C6_strategy_exception_aborts_cycle_counterexample :
    StrategyExecutor.run_cycle
      (fun s => if s = "s1" then Except.error "boom" else Except.ok true) 7
      [("s1", { config := { id := "s1", name := "A", symbol := "EURUSD", timeframe := "M15" },
                status := "active", started_at := 0, last_check := Option.none,
                trades_count := 0, context := [] }),
       ("s2", { config := { id := "s2", name := "B", symbol := "GBPUSD", timeframe := "M15" },
                status := "active", started_at := 0, last_check := Option.none,
                trades_count := 0, context := [] })] =
      ([("s1", { config := { id := "s1", name := "A", symbol := "EURUSD", timeframe := "M15" },
                 status := "active", started_at := 0, last_check := Option.none,
                 trades_count := 0, context := [] }),
        ("s2", { config := { id := "s2", name := "B", symbol := "GBPUSD", timeframe := "M15" },
                 status := "active", started_at := 0, last_check := Option.none,
                 trades_count := 0, context := [] })], some "boom") := by
  decide

/-- C6 (amended): `run_cycle` has no per-strategy exception handling.
If the evaluation of an active strategy raises, strategies earlier in
the iteration keep the updates already applied to them, the failing
strategy and every strategy after it are left untouched (not evaluated
in that cycle), and the exception propagates out of `run_cycle` (and out
of `main._monitor_loop`, which does not catch it either). -/
theorem C6_strategy_exception_propagates_amended
    (evalStrat : String → Except String Bool) (now : ℕ)
    (pre post : List (String × ActiveRecord)) (sid : String) (data : ActiveRecord)
    (hactive : data.status = "active") (err : String)
    (herr : evalStrat sid = Except.error err)
    (hpre : ∀ p ∈ pre, p.2.status = "active" → ∃ b, evalStrat p.1 = Except.ok b) :
    StrategyExecutor.run_cycle evalStrat now (pre ++ (sid, data) :: post) =
      (pre.map (StrategyExecutor.cycleUpdate evalStrat now) ++ (sid, data) :: post,
       some err) := by
  induction pre with
  | nil =>
      simp [StrategyExecutor.run_cycle, hactive, herr]
  | cons p ps ih =>
      obtain ⟨pid, pdata⟩ := p
      have ihh := ih (fun q hq ha => hpre q (List.mem_cons_of_mem _ hq) ha)
      by_cases hact : pdata.status = "active"
      · obtain ⟨b, hb⟩ := hpre (pid, pdata) (List.mem_cons_self _ _) hact
        simp only [List.cons_append, StrategyExecutor.run_cycle, hact, hb,
          List.map_cons, StrategyExecutor.cycleUpdate, ihh]
        simp [hact, hb, ihh]
      · simp only [List.cons_append, StrategyExecutor.run_cycle, hact,
          List.map_cons, StrategyExecutor.cycleUpdate]
        simp [hact, ihh]

/-- C6 witness: one healthy strategy before the failing one — the cycle
aborts with the error after processing the healthy strategy. -/
theorem C6_strategy_exception_propagates_witness :
    (StrategyExecutor.run_cycle
      (fun s => if s = "sBad" then Except.error "boom" else Except.ok true) 9
      [("sGood", { config := { id := "sGood", name := "G", symbol := "EURUSD",
                               timeframe := "M15" },
                   status := "active", started_at := 0, last_check := Option.none,
                   trades_count := 0, context := [] }),
       ("sBad", { config := { id := "sBad", name := "B", symbol := "GBPUSD",
                              timeframe := "M15" },
                  status := "active", started_at := 0, last_check := Option.none,
                  trades_count := 0, context := [] })]).2 = some "boom" := by
  have h := C6_strategy_exception_propagates_amended
    (fun s => if s = "sBad" then Except.error "boom" else Except.ok true) 9
    [("sGood", { config := { id := "sGood", name := "G", symbol := "EURUSD",
                             timeframe := "M15" },
                 status := "active", started_at := 0, last_check := Option.none,
                 trades_count := 0, context := [] })] []
    "sBad" { config := { id := "sBad", name := "B", symbol := "GBPUSD",
                         timeframe := "M15" },
             status := "active", started_at := 0, last_check := Option.none,
             trades_count := 0, context := [] } rfl "boom" rfl
    (by
      intro p hp ha
      refine ⟨true, ?_⟩
      rcases List.mem_cons.mp hp with rfl | hfalse
      · rfl
      · cases hfalse)
  have h2 := congrArg Prod.snd h
  simpa using h2

/-- C7 counterexample: two not-yet-executed levels whose BUY triggers are
both satisfied at price 150; a single `check_partial_exits` call fires
only the first level — the second stays unexecuted (deferred to a later
cycle) even though its trigger holds, contradicting "a single evaluation
cycle fires all satisfied levels". -/
theorem C7_single_fire_per_cycle_counterexample :
    (PartialExitManager.check_partial_exits "BUY" 150 (fun _ => true)
      [{ trigger_price := 100, exit_lots := 1, percentage := 50,
         executed := false, priority := 1 },
       { trigger_price := 120, exit_lots := 1, percentage := 50,
         executed := false, priority := 2 }]).2 = PEOutcome.fired 0 1 50
    ∧ ((PartialExitManager.check_partial_exits "BUY" 150 (fun _ => true)
      [{ trigger_price := 100, exit_lots := 1, percentage := 50,
         executed := false, priority := 1 },
       { trigger_price := 120, exit_lots := 1, percentage := 50,
         executed := false, priority := 2 }]).1.map PartialExitLevel.executed)
        = [true, false]
    ∧ PartialExitManager.levelTriggered "BUY" 150
        { trigger_price := 120, exit_lots := 1, percentage := 50,
          executed := false, priority := 2 } = true := by
  decide

/-- C7 (amended): the two managers differ.
`EnhancedPartialExitManager.check_exit_triggers` fires every satisfied
non-executed level in one call, in stored list order (the setup sorts
levels by ascending priority), with strictly increasing reported
positions.  `PartialExitManager.check_partial_exits` — the manager wired
into the executor cycle — fires at most the FIRST non-executed level
whose trigger holds: the rest of the list is returned unchanged and any
other satisfied level is deferred to a later cycle; when it reports no
trigger, no non-executed level was satisfied. -/
theorem C7_partial_exit_firing_amended
    (trig : ℕ → EPLevel → Bool) (ok : ℕ → Bool) (els : List EPLevel)
    (pt : String) (pr : ℚ) (cok : ℕ → Bool) (levels : List PartialExitLevel) :
    (EnhancedPartialExitManager.check_exit_triggers trig ok els =
      ((List.enumFrom 0 els).map (fun p =>
          if p.2.executed = false ∧ trig p.1 p.2 = true ∧ ok p.1 = true
          then { p.2 with executed := true } else p.2),
       ((List.enumFrom 0 els).filter (fun p =>
          !p.2.executed && trig p.1 p.2 && ok p.1)).map Prod.fst))
    ∧ (EnhancedPartialExitManager.check_exit_triggers trig ok els).2.Pairwise (· < ·)
    ∧ (∀ j lots pct,
        (PartialExitManager.check_partial_exits pt pr cok levels).2
            = PEOutcome.fired j lots pct →
        ∃ hj : j < levels.length,
          (levels[j]).executed = false
          ∧ PartialExitManager.levelTriggered pt pr (levels[j]) = true
          ∧ (PartialExitManager.check_partial_exits pt pr cok levels).1 =
              levels.set j { levels[j] with executed := true }
          ∧ ∀ m (hm : m < levels.length), m < j →
              (levels[m]).executed = true
              ∨ PartialExitManager.levelTriggered pt pr (levels[m]) = false)
    ∧ ((PartialExitManager.check_partial_exits pt pr cok levels).2 = PEOutcome.noTrigger →
        ∀ l ∈ levels, l.executed = false →
          PartialExitManager.levelTriggered pt pr l = false) := by
  refine ⟨?_, ?_, ?_, ?_⟩
  · exact EnhancedPartialExitManager.checkTriggersFrom_eq trig ok els 0
  · have h1 : EnhancedPartialExitManager.check_exit_triggers trig ok els =
        ((List.enumFrom 0 els).map (fun p =>
            if p.2.executed = false ∧ trig p.1 p.2 = true ∧ ok p.1 = true
            then { p.2 with executed := true } else p.2),
         ((List.enumFrom 0 els).filter (fun p =>
            !p.2.executed && trig p.1 p.2 && ok p.1)).map Prod.fst) :=
      EnhancedPartialExitManager.checkTriggersFrom_eq trig ok els 0
    rw [h1]
    have hsub : (((List.enumFrom 0 els).filter (fun p =>
        !p.2.executed && trig p.1 p.2 && ok p.1)).map Prod.fst).Sublist
          ((List.enumFrom 0 els).map Prod.fst) :=
      List.Sublist.map _ (List.filter_sublist _)
    have hpair : ((List.enumFrom 0 els).map Prod.fst).Pairwise (· < ·) := by
      rw [List.enumFrom_map_fst]
      exact List.pairwise_lt_range' 0 els.length
    exact hpair.sublist hsub
  · intro j lots pct hfe
    obtain ⟨k, hjk, hk, hex, htr, hok, hlots, hpct, hres, hfirst⟩ :=
      PartialExitManager.checkFrom_fired pt pr cok levels 0 j lots pct hfe
    have hj : j = k := by omega
    subst hj
    exact ⟨hk, hex, htr, hres, hfirst⟩
  · intro hnt
    exact (PartialExitManager.checkFrom_noTrigger pt pr cok levels 0 hnt).2

/-- C7 witness: the enhanced manager fires both satisfied levels in one
call; the basic manager's fired outcome comes with the first-level-only
update shape. -/
theorem C7_partial_exit_firing_witness :
    EnhancedPartialExitManager.check_exit_triggers (fun _ _ => true) (fun _ => true)
      [{ id := "a", name := "A", percentage := 50, priority := 1, executed := false },
       { id := "b", name := "B", percentage := 50, priority := 2, executed := false }] =
      ([{ id := "a", name := "A", percentage := 50, priority := 1, executed := true },
        { id := "b", name := "B", percentage := 50, priority := 2, executed := true }],
       [0, 1])
    ∧ (PartialExitManager.check_partial_exits "BUY" 150 (fun _ => true)
        [{ trigger_price := 100, exit_lots := 1, percentage := 50,
           executed := false, priority := 1 },
         { trigger_price := 120, exit_lots := 1, percentage := 50,
           executed := false, priority := 2 }]).1 =
      [{ trigger_price := 100, exit_lots := 1, percentage := 50,
         executed := true, priority := 1 },
       { trigger_price := 120, exit_lots := 1, percentage := 50,
         executed := false, priority := 2 }] := by
  constructor
  · rw [(C7_partial_exit_firing_amended (fun _ _ => true) (fun _ => true)
      [{ id := "a", name := "A", percentage := 50, priority := 1, executed := false },
       { id := "b", name := "B", percentage := 50, priority := 2, executed := false }]
      "BUY" 150 (fun _ => true) []).1]
    decide
  · obtain ⟨hj, hex, htr, hset, hfirst⟩ :=
      (C7_partial_exit_firing_amended (fun _ _ => true) (fun _ => true) []
        "BUY" 150 (fun _ => true)
        [{ trigger_price := 100, exit_lots := 1, percentage := 50,
           executed := false, priority := 1 },
         { trigger_price := 120, exit_lots := 1, percentage := 50,
           executed := false, priority := 2 }]).2.2.1 0 1 50 (by decide)
    rw [hset]
    rfl

/-- C8: in observe mode the gate never returns `deny` or
`require_confirmation`; an external `deny`/`require_confirmation`
decision is downgraded to `allow` with the caution note prepended to its
suggestions, and a failed external call yields `allow`. -/
theorem C8_observe_mode_never_blocks (isEnabled : Bool)
    (llm : Except String Decision) :
    ((Supervisor.evaluate "observe" isEnabled llm).action ≠ "deny"
      ∧ (Supervisor.evaluate "observe" isEnabled llm).action ≠ "require_confirmation")
    ∧ (∀ d, isEnabled = true → llm = Except.ok d →
        (d.action = "deny" ∨ d.action = "require_confirmation") →
        Supervisor.evaluate "observe" isEnabled llm =
          { d with
            action := "allow"
            suggestions := "Supervisor recommended caution; running in observe mode"
              :: d.suggestions })
    ∧ (∀ e, llm = Except.error e →
        (Supervisor.evaluate "observe" isEnabled llm).action = "allow") := by
  refine ⟨?_, ?_, ?_⟩
  · cases isEnabled <;> rcases llm with e | d <;>
      simp [Supervisor.evaluate] <;>
      rcases hda : d.action == "deny" with _ | _ <;>
      rcases hrc : d.action == "require_confirmation" with _ | _ <;>
      simp_all
  · rintro d hen rfl hact
    subst hen
    simp [Supervisor.evaluate, hact]
  · rintro e rfl
    cases isEnabled <;> simp [Supervisor.evaluate]

/-- C8 witness: an enabled observe-mode gate downgrades an external
`deny` to `allow` and prepends the caution suggestion. -/
theorem C8_observe_mode_never_blocks_witness :
    Supervisor.evaluate "observe" true
      (Except.ok { action := "deny", reason := "too risky",
                   risks := ["r1"], suggestions := ["s1"], score := Option.none }) =
      { action := "allow", reason := "too risky", risks := ["r1"],
        suggestions := ["Supervisor recommended caution; running in observe mode", "s1"],
        score := Option.none } :=
  (C8_observe_mode_never_blocks true
    (Except.ok { action := "deny", reason := "too risky",
                 risks := ["r1"], suggestions := ["s1"], score := Option.none })).2.1
    { action := "deny", reason := "too risky", risks := ["r1"],
      suggestions := ["s1"], score := Option.none } rfl rfl (Or.inl rfl)

/-- C9 counterexample: the fetch-failure fallback is the static
next-day 13:30 UTC USD news event, not an empty list.  At `now = 810`
(day 0, 13:30 UTC) with the filter enabled and
`pauseAfterMinutes = 3000`, the blackout check on EURUSD returns `true`
in the very cycle whose calendar fetch raised — trading IS frozen by a
fetch failure, contradicting the claim that it always reports no
blackout. -/
theorem C9_fetch_failure_blackout_counterexample :
    NewsFilter.check_news_blackout_fetchFail "EURUSD"
      { enabled := true, pauseBeforeMinutes := 30, pauseAfterMinutes := 3000,
        highImpactOnly := true } 810 = true := by
  decide

/-- C9 (amended): on a non-200 calendar response the cache is emptied
and the blackout check always reports no blackout; on a fetch exception
the cache becomes the single static next-day 13:30 UTC USD event, which
lies strictly more than 810 minutes in the future, so whenever
`pauseAfterMinutes ≤ 810` (e.g. the default 30) the check still reports
no blackout — only a pause window stretched beyond 13.5 hours can freeze
trading on a fetch failure. -/
theorem C9_fetch_failure_amended (symbol : String) (config : NewsConfig) (now : ℕ)
    (hafter : config.pauseAfterMinutes ≤ 810) :
    NewsFilter.check_news_blackout_fetchFail symbol config now = false
    ∧ ∀ (s2 : String) (c2 : NewsConfig) (n2 : ℕ),
        NewsFilter.check_news_blackout_non200 s2 c2 n2 = false := by
  constructor
  · simp only [NewsFilter.check_news_blackout_fetchFail, NewsFilter.check_news_blackout_with]
    split_ifs with h1 h2 h3 <;> try rfl
    have hfilter : NewsFilter.filtered_events (NewsFilter.fallback_events now)
        config.highImpactOnly = NewsFilter.fallback_events now := by
      rcases config.highImpactOnly with _ | _ <;>
        simp [NewsFilter.filtered_events, NewsFilter.fallback_events,
          show pyLower "high" = "high" from rfl]
    rw [hfilter]
    simp only [NewsFilter.fallback_events, List.any_cons, List.any_nil, Bool.or_false]
    rw [Bool.and_eq_false_iff]
    right
    rw [decide_eq_false_iff_not]
    rintro ⟨-, hle⟩
    omega
  · intro s2 c2 n2
    simp only [NewsFilter.check_news_blackout_non200, NewsFilter.check_news_blackout_with]
    split_ifs with h1 h2 h3 <;> try rfl
    exfalso
    apply h3
    rcases c2.highImpactOnly with _ | _ <;> simp [NewsFilter.filtered_events]

/-- C9 witness: with the default 30-minute pauses, a fetch failure at
13:30 UTC reports no blackout for EURUSD. -/
theorem C9_fetch_failure_amended_witness :
    NewsFilter.check_news_blackout_fetchFail "EURUSD"
      { enabled := true, pauseBeforeMinutes := 30, pauseAfterMinutes := 30,
        highImpactOnly := true } 810 = false :=
  (C9_fetch_failure_amended "EURUSD"
    { enabled := true, pauseBeforeMinutes := 30, pauseAfterMinutes := 30,
      highImpactOnly := true } 810 (by norm_num)).1

/-- C10: processing START_STRATEGY for an id already in the
active-strategy map leaves the whole executor state unchanged (the
record keeps its config, status, startedAt, lastCheckAt, tradesCount and
context), emits no event and no persist, and returns the status built
from the existing record. -/
theorem C10_start_strategy_idempotent (st : ExecState) (strategy : StrategyConfig)
    (now : ℕ) (hasEmitter : Bool) (r : ActiveRecord)
    (h : lookup st.active_strategies strategy.id = some r) :
    StrategyExecutor.start_strategy st strategy now hasEmitter =
      (st, some { id := r.config.id, name := r.config.name, symbol := r.config.symbol,
                  timeframe := r.config.timeframe, status := r.status,
                  started_at := r.started_at, last_check := r.last_check,
                  trades_count := r.trades_count }, []) := by
  simp [StrategyExecutor.start_strategy, StrategyExecutor.build_status, h]

/-- C10 witness: restarting an already-active strategy id returns the
stored record's status, unchanged state, and no events. -/
theorem C10_start_strategy_idempotent_witness :
    StrategyExecutor.start_strategy
      { active_strategies :=
          [("s1", { config := { id := "s1", name := "A", symbol := "EURUSD",
                                timeframe := "M15" },
                    status := "stopped", started_at := 3, last_check := some 4,
                    trades_count := 2, context := [("k", "v")] })],
        open_positions := [("s1", [11])] }
      { id := "s1", name := "A2", symbol := "GBPUSD", timeframe := "H1" } 9 true =
      ({ active_strategies :=
          [("s1", { config := { id := "s1", name := "A", symbol := "EURUSD",
                                timeframe := "M15" },
                    status := "stopped", started_at := 3, last_check := some 4,
                    trades_count := 2, context := [("k", "v")] })],
         open_positions := [("s1", [11])] },
       some { id := "s1", name := "A", symbol := "EURUSD", timeframe := "M15",
              status := "stopped", started_at := 3, last_check := some 4,
              trades_count := 2 }, []) :=
  C10_start_strategy_idempotent
    { active_strategies :=
        [("s1", { config := { id := "s1", name := "A", symbol := "EURUSD",
                              timeframe := "M15" },
                  status := "stopped", started_at := 3, last_check := some 4,
                  trades_count := 2, context := [("k", "v")] })],
      open_positions := [("s1", [11])] }
    { id := "s1", name := "A2", symbol := "GBPUSD", timeframe := "H1" } 9 true
    { config := { id := "s1", name := "A", symbol := "EURUSD", timeframe := "M15" },
      status := "stopped", started_at := 3, last_check := some 4,
      trades_count := 2, context := [("k", "v")] } rfl

end FX
